import Mathlib

/-!
# Polarity — verification of the deterministic game-state engine

A shallow embedding of the Polarity game's core (grid codec, level
normalizer, physics engine, game-mode state machine, game-loop driver)
translated from the game's main script, together with theorems settling
the frozen claims about the natural-language specification.

Numbers are modelled as exact rationals (`ℚ`): the JS source computes in
IEEE doubles, but every claim here is structural (which branch runs, which
entity is used, which field changes), not about rounding.  `Math.sqrt` is
modelled as an explicit function parameter `sqrt : ℚ → ℚ`; theorems that
need the square root to be exact say so by hypothesis.  Render-only state
(particle visuals, target rotation offsets, colours) carries no gameplay
effect and is omitted from the embedded records.
-/

namespace Polarity

/-! ## Constants (from the game script) -/

def PLAY_GRID_SIZE : ℕ := 6
def PLAYER_SIZE : ℚ := 25
def TARGET_SIZE : ℚ := 22
def ATTRACTOR_SIZE : ℚ := 22
def GRAVITY : ℚ := 0.0625
def PHYSICS_SPEED : ℚ := 2
def SPRINT_TARGET_SCORE : ℤ := 250
def TIME_ATTACK_DURATION : ℤ := 30
def TRAIL_FADE_RATE : ℚ := 0.95
def TRAIL_MAX_LENGTH : ℕ := 20
def MIN_ATTRACTION_DISTANCE : ℚ := 10
def ATTRACTION_FORCE_NUMERATOR : ℚ := 500
def ATTRACTION_FORCE_DAMPENING : ℚ := 200
def PHYSICS_DT : ℚ := 1000 / 60
def MAX_PHYSICS_STEPS : ℕ := 2

/-! ## Data model

`PLAY_CELL_SIZE = gameCanvas.width / PLAY_GRID_SIZE` is a runtime value
(the canvas size); definitions that need it take it as a parameter
`cellSize`. -/

structure Attractor where
  x : ℚ
  y : ℚ
deriving DecidableEq

structure Target where
  x : ℚ
  y : ℚ
  collected : Bool
deriving DecidableEq

structure Wall where
  x : ℚ
  y : ℚ
deriving DecidableEq

structure TrailPoint where
  x : ℚ
  y : ℚ
  alpha : ℚ
deriving DecidableEq

structure Player where
  x : ℚ
  y : ℚ
  vx : ℚ
  vy : ℚ
  size : ℚ
  trail : List TrailPoint
  hasAttracted : Bool
  prevX : ℚ
  prevY : ℚ
deriving DecidableEq

/-- The held attract inputs: `x` pulls toward red, `z` toward blue. -/
structure Keys where
  x : Bool
  z : Bool
deriving DecidableEq

inductive GameMode where
  | timeAttack
  | sprint
  | staged
deriving DecidableEq

/-- A stage target coordinate (`{x, y}` in the level JSON). -/
structure Tgt where
  x : ℤ
  y : ℤ
deriving DecidableEq

structure Stage where
  targets : List Tgt
deriving DecidableEq

structure Level where
  name : String
  gameMode : GameMode
  baseGrid : List (List String)
  stages : List Stage
  target : ℤ
deriving DecidableEq

/-! ## Level normalizer -/

/-- One overlay write of `normalizeLevelData`'s staged loop: for a target
coordinate, if `y` and `x` are within `[0, PLAY_GRID_SIZE)`, set cell
`mergedGrid[y][x] = "T"` (a missing row is skipped, as in the source's
`if (row)` guard). -/
def setTargetCell (g : List (List String)) (t : Tgt) : List (List String) :=
  if 0 ≤ t.y ∧ t.y < (PLAY_GRID_SIZE : ℤ) ∧ 0 ≤ t.x ∧ t.x < (PLAY_GRID_SIZE : ℤ) then
    match g[t.y.toNat]? with
    | some row => g.set t.y.toNat (row.set t.x.toNat "T")
    | none => g
  else g

def applyStageTargets (g : List (List String)) (ts : List Tgt) : List (List String) :=
  ts.foldl setTargetCell g

/-- `normalizeLevelData(levelData, stageIndex)`: for `timeAttack`/`sprint`,
a copy of `baseGrid`; for `staged`, `null` when the stage does not exist,
otherwise the base grid with the stage's in-bounds targets overlaid as
`"T"` cells.  (Lists are values here, so the JS row copies are the
identity; the aliasing behaviour is modelled separately at the heap level
for the frame-effect claim.) -/
def normalizeLevelData (levelData : Level) (stageIndex : ℕ) : Option (List (List String)) :=
  if levelData.gameMode = GameMode.timeAttack ∨ levelData.gameMode = GameMode.sprint then
    some levelData.baseGrid
  else
    match levelData.stages[stageIndex]? with
    | none => none
    | some stage => some (applyStageTargets levelData.baseGrid stage.targets)

/-! ## Grid codec -/

/-- Pixel position of a centred entity in cell `(gridX, gridY)`. -/
def playGridToPixel (cellSize : ℚ) (gridX gridY : ℕ) : ℚ × ℚ :=
  ((gridX : ℚ) * cellSize + (cellSize - TARGET_SIZE) / 2,
   (gridY : ℚ) * cellSize + (cellSize - TARGET_SIZE) / 2)

structure ParseResult where
  playerX : ℕ
  playerY : ℕ
  reds : List Attractor
  blues : List Attractor
  targs : List Target
  wallList : List Wall
deriving DecidableEq

/-- One cell of `parseGrid`'s switch.  `cell` is `row[x]`: `none` when the
row is missing or too short (the switch then matches nothing). -/
def parseCell (cellSize : ℚ) (st : ParseResult) (y x : ℕ) (cell : Option String) :
    ParseResult :=
  match cell with
  | none => st
  | some c =>
    if c = "P" then { st with playerX := x, playerY := y }
    else if c = "R" then
      { st with reds := st.reds ++ [⟨(playGridToPixel cellSize x y).1, (playGridToPixel cellSize x y).2⟩] }
    else if c = "B" then
      { st with blues := st.blues ++ [⟨(playGridToPixel cellSize x y).1, (playGridToPixel cellSize x y).2⟩] }
    else if c = "T" then
      { st with targs := st.targs ++ [⟨(playGridToPixel cellSize x y).1, (playGridToPixel cellSize x y).2, false⟩] }
    else if c = "W" then
      { st with wallList := st.wallList ++ [⟨(x : ℚ) * cellSize, (y : ℚ) * cellSize⟩] }
    else st

/-- Cell `(y, x)` of a grid, `none` when the row or the cell is missing. -/
def cellAt (g : List (List String)) (y x : ℕ) : Option String :=
  g[y]?.bind fun row => row[x]?

/-- `parseGrid`'s scan: row-major, top-to-bottom then left-to-right, with
the player-start default `(2, 2)`. -/
def parseGrid (cellSize : ℚ) (grid : List (List String)) : ParseResult :=
  (List.range PLAY_GRID_SIZE).foldl
    (fun st y =>
      match grid[y]? with
      | none => st
      | some row =>
        (List.range PLAY_GRID_SIZE).foldl
          (fun st' x => parseCell cellSize st' y x row[x]?) st)
    ⟨2, 2, [], [], [], []⟩

/-- The scan order of `parseGrid` as a flat list of `(y, x)` coordinates. -/
def scanCoords : List (ℕ × ℕ) :=
  (List.range PLAY_GRID_SIZE).flatMap fun y =>
    (List.range PLAY_GRID_SIZE).map fun x => (y, x)

/-- Spec-side re-extraction for the round-trip claim: the `(x, y)`
coordinates of all cells equal to `"T"`, in scan order. -/
def gridTargetCoords (g : List (List String)) : List (ℕ × ℕ) :=
  scanCoords.filterMap fun yx =>
    if cellAt g yx.1 yx.2 = some "T" then some (yx.2, yx.1) else none

/-- A grid of the documented shape: `PLAY_GRID_SIZE` rows of that length. -/
def WellFormedGrid (g : List (List String)) : Prop :=
  g.length = PLAY_GRID_SIZE ∧ ∀ row ∈ g, row.length = PLAY_GRID_SIZE

instance : DecidablePred WellFormedGrid := fun g => by
  unfold WellFormedGrid; infer_instance

/-- A stage target coordinate within grid bounds. -/
def TgtInBounds (t : Tgt) : Prop :=
  0 ≤ t.x ∧ t.x < (PLAY_GRID_SIZE : ℤ) ∧ 0 ≤ t.y ∧ t.y < (PLAY_GRID_SIZE : ℤ)

instance : DecidablePred TgtInBounds := fun t => by
  unfold TgtInBounds; infer_instance

/-- The default level shipped with the game (`timeAttack`, no stages). -/
def defaultLevelData : Level where
  name := "Default"
  gameMode := GameMode.timeAttack
  baseGrid :=
    [[" ", " ", " ", " ", " ", "R"],
     [" ", " ", " ", " ", " ", " "],
     [" ", " ", " ", " ", " ", " "],
     [" ", " ", "B", "P", " ", " "],
     [" ", " ", " ", " ", " ", " "],
     [" ", " ", " ", " ", " ", " "]]
  stages := []
  target := 200

/-! ## Physics engine -/

/-- Horizontal offset from the player's centre to an attractor's centre. -/
def dxTo (p : Player) (a : Attractor) : ℚ :=
  a.x + ATTRACTOR_SIZE / 2 - (p.x + p.size / 2)

/-- Vertical offset from the player's centre to an attractor's centre. -/
def dyTo (p : Player) (a : Attractor) : ℚ :=
  a.y + ATTRACTOR_SIZE / 2 - (p.y + p.size / 2)

/-- Distance from the player's centre to an attractor's centre, through
the square-root model `sqrt`. -/
def distToPlayer (sqrt : ℚ → ℚ) (p : Player) (a : Attractor) : ℚ :=
  sqrt (dxTo p a * dxTo p a + dyTo p a * dyTo p a)

/-- The force magnitude of the attraction law at a given distance. -/
def attractionForce (dist : ℚ) : ℚ :=
  ATTRACTION_FORCE_NUMERATOR / (dist * dist + ATTRACTION_FORCE_DAMPENING) * PHYSICS_SPEED

/-- The body of `getClosestAttractor`'s loop: keep the strictly closer
of the best-so-far `(closest, closestDist)` and the next attractor.
`closestDist` starts at `Infinity` in the source, so the first attractor
always replaces the initial `null` (`none`). -/
def closestStep (sqrt : ℚ → ℚ) (p : Player) (acc : Option (Attractor × ℚ))
    (a : Attractor) : Option (Attractor × ℚ) :=
  let dist := distToPlayer sqrt p a
  match acc with
  | none => some (a, dist)
  | some cd => if dist < cd.2 then some (a, dist) else some cd

/-- `getClosestAttractor`: linear scan over the polarity's attractors. -/
def getClosestAttractor (sqrt : ℚ → ℚ) (p : Player) (attractors : List Attractor) :
    Option Attractor :=
  (attractors.foldl (closestStep sqrt p) none).map Prod.fst

/-- One polarity's block of `applyAttraction` (the body of `if (keys.x)`
or `if (keys.z)`): force from the closest attractor only, inverse-square
law with dampening, no force at or below `MIN_ATTRACTION_DISTANCE`. -/
def applyPolarity (sqrt : ℚ → ℚ) (attractors : List Attractor) (p : Player) : Player :=
  match getClosestAttractor sqrt p attractors with
  | none => p
  | some closest =>
    let dx := closest.x + ATTRACTOR_SIZE / 2 - (p.x + p.size / 2)
    let dy := closest.y + ATTRACTOR_SIZE / 2 - (p.y + p.size / 2)
    let dist := sqrt (dx * dx + dy * dy)
    if dist > MIN_ATTRACTION_DISTANCE then
      let force :=
        ATTRACTION_FORCE_NUMERATOR / (dist * dist + ATTRACTION_FORCE_DAMPENING) *
          PHYSICS_SPEED
      { p with vx := p.vx + dx / dist * force, vy := p.vy + dy / dist * force }
    else p

/-- `applyAttraction` of the current engine: the red block runs when `x`
is held, then the blue block when `z` is held (both may apply in one
tick). -/
def applyAttraction (sqrt : ℚ → ℚ) (keys : Keys) (redAttractors blueAttractors : List Attractor)
    (p : Player) : Player :=
  let p1 := if keys.x then applyPolarity sqrt redAttractors p else p
  if keys.z then applyPolarity sqrt blueAttractors p1 else p1

/-- `applyAttraction` of the older variant engine in the repository: it
concatenates *all* attractors of the held polarities and sums every
attractor's force (numerator 400) into the velocity, instead of using
only the nearest one. -/
def applyAttractionVariant (sqrt : ℚ → ℚ) (keys : Keys)
    (redAttractors blueAttractors : List Attractor) (p : Player) : Player :=
  let attractors :=
    (if keys.x then redAttractors else []) ++ (if keys.z then blueAttractors else [])
  attractors.foldl
    (fun q a =>
      let dx := a.x + ATTRACTOR_SIZE / 2 - (q.x + q.size / 2)
      let dy := a.y + ATTRACTOR_SIZE / 2 - (q.y + q.size / 2)
      let dist := sqrt (dx * dx + dy * dy)
      if dist > 10 then
        let force := 400 / (dist * dist + 200) * PHYSICS_SPEED
        { q with vx := q.vx + dx / dist * force, vy := q.vy + dy / dist * force }
      else q)
    p

/-- A square-root table exact on the two squared distances sampled by the
attraction counterexample. -/
def cexSqrt : ℚ → ℚ := fun q => if q = 225 then 15 else if q = 2500 then 50 else 0

/-- A player whose centre is the origin. -/
def cexPlayer : Player where
  x := -12.5
  y := -12.5
  vx := 0
  vy := 0
  size := 25
  trail := []
  hasAttracted := false
  prevX := 0
  prevY := 0

/-- Attractor centred at `(9, 12)`: distance 15 from `cexPlayer`. -/
def cexA1 : Attractor := ⟨9 - 11, 12 - 11⟩

/-- Attractor centred at `(30, 40)`: distance 50 from `cexPlayer`. -/
def cexA2 : Attractor := ⟨30 - 11, 40 - 11⟩

/-- The push-out branch chain of `updatePlayer`'s wall loop, on the four
directional overlap depths (`Math.min` of four arguments is the left fold
of binary `min`). -/
def resolveOverlap (cellSize : ℚ) (p : Player) (wallX wallY oL oR oT oB : ℚ) : Player :=
  let minOverlap := min (min (min oL oR) oT) oB
  if minOverlap = oL then { p with x := wallX - p.size, vx := 0 }
  else if minOverlap = oR then { p with x := wallX + cellSize, vx := 0 }
  else if minOverlap = oT then { p with y := wallY - p.size, vy := 0 }
  else if minOverlap = oB then { p with y := wallY + cellSize, vy := 0 }
  else p

/-- One iteration of `updatePlayer`'s `walls.forEach` loop: on AABB
overlap, compute the four overlap depths and resolve. -/
def resolveWall (cellSize : ℚ) (p : Player) (w : Wall) : Player :=
  if p.x < w.x + cellSize ∧ p.x + p.size > w.x ∧ p.y < w.y + cellSize ∧ p.y + p.size > w.y then
    resolveOverlap cellSize p w.x w.y
      (p.x + p.size - w.x) (w.x + cellSize - p.x)
      (p.y + p.size - w.y) (w.y + cellSize - p.y)
  else p

def heldAttract (keys : Keys) : Bool := keys.x || keys.z

/-- `updatePlayer`, first lines: remember the previous position. -/
def prevStep (p : Player) : Player := { p with prevX := p.x, prevY := p.y }

/-- `updatePlayer`, gravity block: mark `hasAttracted` while an attract
input is held; add gravity when the player has attracted before and no
attract input is held now. -/
def gravityStep (keys : Keys) (p : Player) : Player :=
  let p1 := if heldAttract keys then { p with hasAttracted := true } else p
  if p1.hasAttracted && !heldAttract keys then
    { p1 with vy := p1.vy + GRAVITY * PHYSICS_SPEED }
  else p1

/-- `updatePlayer`, integration: explicit Euler scaled by `PHYSICS_SPEED`. -/
def integrateStep (p : Player) : Player :=
  { p with x := p.x + p.vx * PHYSICS_SPEED, y := p.y + p.vy * PHYSICS_SPEED }

/-- `updatePlayer`, boundary clamping, in source order. -/
def clampStep (canvasW canvasH : ℚ) (p : Player) : Player :=
  let p1 := if p.x < 0 then { p with x := 0, vx := 0 } else p
  let p2 := if p1.x + p1.size > canvasW then { p1 with x := canvasW - p1.size, vx := 0 } else p1
  let p3 := if p2.y < 0 then { p2 with y := 0, vy := 0 } else p2
  if p3.y + p3.size > canvasH then { p3 with y := canvasH - p3.size, vy := 0 } else p3

def wallsStep (cellSize : ℚ) (walls : List Wall) (p : Player) : Player :=
  walls.foldl (resolveWall cellSize) p

/-- `updatePlayer`, trail block: append the current position with alpha 1,
evict the oldest beyond `TRAIL_MAX_LENGTH`, then decay every point. -/
def trailStep (p : Player) : Player :=
  let trail1 := p.trail ++ [⟨p.x, p.y, 1⟩]
  let trail2 := if trail1.length > TRAIL_MAX_LENGTH then trail1.drop 1 else trail1
  { p with trail := trail2.map fun t => { t with alpha := t.alpha * TRAIL_FADE_RATE } }

/-- `updatePlayer`, in source order. -/
def updatePlayer (cellSize canvasW canvasH : ℚ) (walls : List Wall) (keys : Keys)
    (p : Player) : Player :=
  trailStep (wallsStep cellSize walls (clampStep canvasW canvasH
    (integrateStep (gravityStep keys (prevStep p)))))

/-- One physics step of the game loop, restricted to the player:
`applyAttraction()` then `updatePlayer()`. -/
def tickPlayer (sqrt : ℚ → ℚ) (cellSize canvasW canvasH : ℚ)
    (redAttractors blueAttractors : List Attractor) (walls : List Wall)
    (keys : Keys) (p : Player) : Player :=
  updatePlayer cellSize canvasW canvasH walls keys
    (applyAttraction sqrt keys redAttractors blueAttractors p)

/-- The player after `n` physics steps under the held-input sequence
`inputs`, starting from `p0`. -/
def playerAt (sqrt : ℚ → ℚ) (cellSize canvasW canvasH : ℚ)
    (redAttractors blueAttractors : List Attractor) (walls : List Wall)
    (inputs : ℕ → Keys) (p0 : Player) : ℕ → Player
  | 0 => p0
  | n + 1 =>
    tickPlayer sqrt cellSize canvasW canvasH redAttractors blueAttractors walls
      (inputs n)
      (playerAt sqrt cellSize canvasW canvasH redAttractors blueAttractors walls inputs p0 n)

/-! ## Game-mode state machine

The mutable module-level game state as one record.  Render/clock-only
state (`particles`, `gameOverProcessed`, `lastTimerUpdate`, trail pools)
carries no gameplay effect on the claims and is omitted.  Randomness
(`Math.random()`) is modelled by an explicit stream `rand : ℕ → ℚ`. -/

structure GameState where
  score : ℤ
  timeRemaining : ℤ
  sprintTimeElapsed : ℤ
  isGameOver : Bool
  player : Player
  redAttractors : List Attractor
  blueAttractors : List Attractor
  targets : List Target
  walls : List Wall
  currentLevelData : Level
  currentPlayStageIndex : ℕ
  totalStages : ℕ
deriving DecidableEq

/-- `isValidTargetPosition`: a candidate target box may overlap no wall
and no attractor box. -/
def isValidTargetPosition (cellSize : ℚ) (walls : List Wall)
    (redAttractors blueAttractors : List Attractor) (x y : ℚ) : Bool :=
  walls.all (fun w =>
    !(decide (x < w.x + cellSize ∧ x + TARGET_SIZE > w.x ∧
        y < w.y + cellSize ∧ y + TARGET_SIZE > w.y))) &&
  redAttractors.all (fun a =>
    !(decide (x < a.x + ATTRACTOR_SIZE ∧ x + TARGET_SIZE > a.x ∧
        y < a.y + ATTRACTOR_SIZE ∧ y + TARGET_SIZE > a.y))) &&
  blueAttractors.all (fun a =>
    !(decide (x < a.x + ATTRACTOR_SIZE ∧ x + TARGET_SIZE > a.x ∧
        y < a.y + ATTRACTOR_SIZE ∧ y + TARGET_SIZE > a.y)))

/-- `spawnRandomTargets`: per row a coin-flip candidate in the right edge
column, then three candidates in the left four columns; rejected
candidates are dropped.  The state threads the next index into the
random stream (a placement consumes one extra draw in the source for the
render-only rotation offset, mirrored here to keep draws distinct). -/
def spawnRandomTargets (cellSize : ℚ) (walls : List Wall)
    (redAttractors blueAttractors : List Attractor) (rand : ℕ → ℚ) : List Target :=
  let phaseA :=
    (List.range PLAY_GRID_SIZE).foldl
      (fun (acc : ℕ × List Target) i =>
        if rand acc.1 > 0.5 then
          let targetX := cellSize * 5 + (cellSize - TARGET_SIZE) / 2
          let targetY := cellSize * (i : ℚ) + (cellSize - TARGET_SIZE) / 2
          if isValidTargetPosition cellSize walls redAttractors blueAttractors targetX targetY then
            (acc.1 + 2, acc.2 ++ [⟨targetX, targetY, false⟩])
          else (acc.1 + 1, acc.2)
        else (acc.1 + 1, acc.2))
      (0, [])
  let phaseB :=
    (List.range 3).foldl
      (fun (acc : ℕ × List Target) _ =>
        let gridX := ⌊rand acc.1 * 4⌋
        let gridY := ⌊rand (acc.1 + 1) * (PLAY_GRID_SIZE : ℚ)⌋
        let targetX := cellSize * (gridX : ℚ) + (cellSize - TARGET_SIZE) / 2
        let targetY := cellSize * (gridY : ℚ) + (cellSize - TARGET_SIZE) / 2
        if isValidTargetPosition cellSize walls redAttractors blueAttractors targetX targetY then
          (acc.1 + 3, acc.2 ++ [⟨targetX, targetY, false⟩])
        else (acc.1 + 2, acc.2))
      phaseA
  phaseB.2

/-- `loadLevel(levelData, stageIndex, resetState)`, in source order: set
the current-level bookkeeping, bail out when normalization returns
`null` (the bookkeeping writes are already applied), optionally reset
score/timer/velocity/trail, always clear `isGameOver` and
`hasAttracted`, parse the merged grid, optionally reset the player
position, replace attractors and walls, then spawn or install targets. -/
def loadLevel (cellSize : ℚ) (rand : ℕ → ℚ) (s : GameState) (levelData : Level)
    (stageIndex : ℕ) (resetState : Bool) : GameState :=
  let s0 := { s with currentLevelData := levelData, currentPlayStageIndex := stageIndex,
                     totalStages := if levelData.stages.length = 0 then 1
                       else levelData.stages.length }
  match normalizeLevelData levelData stageIndex with
  | none => s0
  | some grid =>
    let s1 :=
      if resetState then
        { s0 with score := 0,
                  sprintTimeElapsed :=
                    if levelData.gameMode = GameMode.sprint ∨ levelData.gameMode = GameMode.staged
                    then 0 else s0.sprintTimeElapsed,
                  timeRemaining :=
                    if levelData.gameMode = GameMode.sprint ∨ levelData.gameMode = GameMode.staged
                    then s0.timeRemaining else TIME_ATTACK_DURATION,
                  player := { s0.player with vx := 0, vy := 0, trail := [] } }
      else s0
    let s2 := { s1 with isGameOver := false,
                        player := { s1.player with hasAttracted := false } }
    let pr := parseGrid cellSize grid
    let s3 :=
      if resetState then
        { s2 with player := { s2.player with
                    x := (pr.playerX : ℚ) * cellSize + (cellSize - PLAYER_SIZE) / 2,
                    y := (pr.playerY : ℚ) * cellSize + (cellSize - PLAYER_SIZE) / 2 } }
      else s2
    let s4 := { s3 with redAttractors := pr.reds, blueAttractors := pr.blues,
                        walls := pr.wallList }
    if levelData.gameMode = GameMode.timeAttack ∨ levelData.gameMode = GameMode.sprint then
      { s4 with targets :=
          spawnRandomTargets cellSize s4.walls s4.redAttractors s4.blueAttractors rand }
    else
      { s4 with targets := pr.targs }

/-- Player/target AABB overlap, as tested in `checkCollisions`. -/
def playerOverlapsTarget (p : Player) (t : Target) : Prop :=
  p.x < t.x + TARGET_SIZE ∧ p.x + p.size > t.x ∧
    p.y < t.y + TARGET_SIZE ∧ p.y + p.size > t.y

instance (p : Player) (t : Target) : Decidable (playerOverlapsTarget p t) := by
  unfold playerOverlapsTarget; infer_instance

/-- One iteration of `checkCollisions`' `targets.forEach` body at index
`i`: collect an uncollected overlapped target, award 10 points, and
re-check the sprint and staged terminal conditions (the staged check
reads the mutated target array mid-loop, as the source does). -/
def collectAt (s : GameState) (i : ℕ) : GameState :=
  match s.targets[i]? with
  | none => s
  | some t =>
    if ¬t.collected ∧ playerOverlapsTarget s.player t then
      let targets1 := s.targets.set i { t with collected := true }
      let score1 := s.score + 10
      let go1 :=
        if s.currentLevelData.gameMode = GameMode.sprint ∧ score1 ≥ SPRINT_TARGET_SCORE
        then true else s.isGameOver
      let go2 :=
        if s.currentLevelData.gameMode = GameMode.staged ∧
            targets1.all (fun u => u.collected) ∧
            s.currentPlayStageIndex ≥ s.totalStages - 1
        then true else go1
      { s with targets := targets1, score := score1, isGameOver := go2 }
    else s

/-- The collection phase of `checkCollisions`: the `forEach` over the
target array (its length is fixed during the loop). -/
def collectTargets (s : GameState) : GameState :=
  (List.range s.targets.length).foldl collectAt s

/-- The full-clear phase of `checkCollisions`: respawn for
`timeAttack`/`sprint`, advance the stage when one remains, otherwise end
a staged game. -/
def fullClear (cellSize : ℚ) (rand : ℕ → ℚ) (s : GameState) : GameState :=
  if s.targets.all (fun t => t.collected) then
    if s.currentLevelData.gameMode = GameMode.timeAttack ∨
        s.currentLevelData.gameMode = GameMode.sprint then
      { s with targets :=
          spawnRandomTargets cellSize s.walls s.redAttractors s.blueAttractors rand }
    else if s.currentPlayStageIndex < s.totalStages - 1 then
      loadLevel cellSize rand { s with currentPlayStageIndex := s.currentPlayStageIndex + 1 }
        s.currentLevelData (s.currentPlayStageIndex + 1) false
    else if s.currentLevelData.gameMode = GameMode.staged then
      { s with isGameOver := true }
    else s
  else s

def checkCollisions (cellSize : ℚ) (rand : ℕ → ℚ) (s : GameState) : GameState :=
  fullClear cellSize rand (collectTargets s)

/-! ## Game-loop driver -/

/-- The catch-up loop of `gameLoop`: subtract one fixed step per
iteration while a full step is accumulated and fewer than
`MAX_PHYSICS_STEPS` have run (the fuel is the remaining step budget). -/
def stepLoop : ℚ → ℕ → ℕ → ℚ × ℕ
  | a, steps, 0 => (a, steps)
  | a, steps, fuel + 1 =>
    if a ≥ PHYSICS_DT then stepLoop (a - PHYSICS_DT) (steps + 1) fuel else (a, steps)

/-- One frame of the fixed-step accumulator: add the elapsed wall-clock
time, clamp the backlog to 2000 ms, then run the catch-up loop.  Returns
the remaining accumulated time and the number of physics steps run. -/
def frameAccum (accum elapsed : ℚ) : ℚ × ℕ :=
  let a0 := accum + elapsed
  let a1 := if a0 > 2000 then 2000 else a0
  stepLoop a1 0 MAX_PHYSICS_STEPS

/-- The render interpolation factor computed at the end of a frame. -/
def interpolationFactor (accumulated : ℚ) : ℚ := accumulated / PHYSICS_DT

/-! ## Heap-level model of the normalizer (for the frame-effect claim)

JS arrays are mutable references.  To state that `normalizeLevelData`
never mutates its input and shares no rows with it, rows are placed in a
store (`List (List String)`) and a grid is a list of row references
(indices into the store).  `baseGrid.map((row) => [...row])` allocates
one fresh row per base row; the staged overlay writes mutate rows through
the fresh references only. -/

/-- Allocate a copy of every referenced row at the end of the store;
the returned references point at the fresh copies. -/
def copyRows (store : List (List String)) (baseGrid : List ℕ) :
    List (List String) × List ℕ :=
  (store ++ baseGrid.map (fun r => store.getD r []),
   List.range' store.length baseGrid.length)

/-- The staged overlay write `row[x] = "T"` through a row reference of
the merged grid. -/
def writeTargetRef (store : List (List String)) (mergedGrid : List ℕ) (t : Tgt) :
    List (List String) :=
  if 0 ≤ t.y ∧ t.y < (PLAY_GRID_SIZE : ℤ) ∧ 0 ≤ t.x ∧ t.x < (PLAY_GRID_SIZE : ℤ) then
    match mergedGrid[t.y.toNat]? with
    | some r => store.set r ((store.getD r []).set t.x.toNat "T")
    | none => store
  else store

/-- `normalizeLevelData` at the heap level: the final store plus the
returned grid's row references (`none` for the JS `null`). -/
def normalizeLevelDataRef (store : List (List String)) (gameMode : GameMode)
    (baseGrid : List ℕ) (stages : List Stage) (stageIndex : ℕ) :
    List (List String) × Option (List ℕ) :=
  if gameMode = GameMode.timeAttack ∨ gameMode = GameMode.sprint then
    ((copyRows store baseGrid).1, some (copyRows store baseGrid).2)
  else
    match stages[stageIndex]? with
    | none => (store, none)
    | some stage =>
      ((stage.targets.foldl
          (fun st t => writeTargetRef st (copyRows store baseGrid).2 t)
          (copyRows store baseGrid).1),
       some (copyRows store baseGrid).2)

/-! ## Concrete fixtures and derived definitions used by the theorems -/

/-- The last `"P"` cell of the scan, as a `(y, x)` coordinate. -/
def lastPlayerCell (grid : List (List String)) : Option (ℕ × ℕ) :=
  scanCoords.reverse.find? fun yx => decide (cellAt grid yx.1 yx.2 = some "P")

/-- A grid whose first row holds two player-start cells. -/
def gridTwoPlayers : List (List String) :=
  [["P", "P", " ", " ", " ", " "],
   [" ", " ", " ", " ", " ", " "],
   [" ", " ", " ", " ", " ", " "],
   [" ", " ", " ", " ", " ", " "],
   [" ", " ", " ", " ", " ", " "],
   [" ", " ", " ", " ", " ", " "]]

/-- A concrete staged level with one stage holding the single target `(1, 2)`. -/
def witnessStagedLevel : Level where
  name := "W"
  gameMode := GameMode.staged
  baseGrid :=
    [[" ", " ", " ", " ", " ", "R"],
     [" ", " ", " ", " ", " ", " "],
     [" ", " ", " ", " ", " ", " "],
     [" ", " ", "B", "P", " ", " "],
     [" ", " ", " ", " ", " ", " "],
     [" ", " ", " ", " ", " ", " "]]
  stages := [⟨[⟨1, 2⟩]⟩]
  target := 10

/-- The player state the gravity block of tick `n` sees: the trace state
after `applyAttraction` and the previous-position save of that tick. -/
def preGravityPlayer (sqrt : ℚ → ℚ) (cellSize canvasW canvasH : ℚ)
    (reds blues : List Attractor) (walls : List Wall) (inputs : ℕ → Keys)
    (p0 : Player) (n : ℕ) : Player :=
  prevStep (applyAttraction sqrt (inputs n) reds blues
    (playerAt sqrt cellSize canvasW canvasH reds blues walls inputs p0 n))

/-- A sprint-mode level for the threshold witness. -/
def c5Level : Level where
  name := "Sprint"
  gameMode := GameMode.sprint
  baseGrid := defaultLevelData.baseGrid
  stages := []
  target := 250

/-- A sprint game at score 240 with one uncollected target under the
player. -/
def c5State : GameState where
  score := 240
  timeRemaining := 30
  sprintTimeElapsed := 0
  isGameOver := false
  player := { x := 0, y := 0, vx := 0, vy := 0, size := 25, trail := [],
              hasAttracted := true, prevX := 0, prevY := 0 }
  redAttractors := []
  blueAttractors := []
  targets := [⟨0, 0, false⟩]
  walls := []
  currentLevelData := c5Level
  currentPlayStageIndex := 0
  totalStages := 1

/-- A two-stage staged level for the progression witness. -/
def c6Level : Level where
  name := "Staged"
  gameMode := GameMode.staged
  baseGrid := defaultLevelData.baseGrid
  stages := [⟨[⟨0, 0⟩]⟩, ⟨[⟨4, 4⟩]⟩]
  target := 30

/-- A staged game on stage 0 whose single remaining target sits under the
player. -/
def c6State : GameState where
  score := 10
  timeRemaining := 30
  sprintTimeElapsed := 5
  isGameOver := false
  player := { x := 0, y := 0, vx := 0, vy := 0, size := 25, trail := [],
              hasAttracted := true, prevX := 0, prevY := 0 }
  redAttractors := []
  blueAttractors := []
  targets := [⟨0, 0, false⟩]
  walls := []
  currentLevelData := c6Level
  currentPlayStageIndex := 0
  totalStages := 2

/-! ## C8: when the normalizer returns null -/

/-- **C8.** As stated the claim is false: for `timeAttack`/`sprint` levels
the normalizer ignores the stage list entirely and always returns a grid.
Amended: `normalizeLevelData` returns `null` iff the level is in `staged`
mode and the requested stage index does not exist in its stage list;
otherwise it returns a grid. -/
theorem c8_normalize_null_iff (levelData : Level) (stageIndex : ℕ) :
    normalizeLevelData levelData stageIndex = none ↔
      levelData.gameMode = GameMode.staged ∧ levelData.stages[stageIndex]? = none := by
  unfold normalizeLevelData
  rcases hm : levelData.gameMode with _ | _ | _
  · simp [hm]
  · simp [hm]
  · rcases hs : levelData.stages[stageIndex]? with _ | st <;> simp [hm, hs]

/-- **C8, counterexample to the claim as stated.** The default level is in
`timeAttack` mode with an empty stage list, so stage index `0` does not
exist, yet the normalizer returns a grid rather than `null`. -/
theorem c8_counterexample :
    defaultLevelData.stages[0]? = none ∧
      normalizeLevelData defaultLevelData 0 ≠ none := by
  constructor
  · rfl
  · simp [normalizeLevelData, defaultLevelData]

/-! ## C9: which player-start cell the codec uses -/

theorem foldl_id {α σ : Type _} (l : List α) (s : σ) :
    l.foldl (fun st _ => st) s = s := by
  induction l generalizing s with
  | nil => rfl
  | cons a l ih => simp only [List.foldl_cons]; exact ih s

theorem foldl_flatMap {α β σ : Type _} (ys : List α) (g : α → List β)
    (f : σ → β → σ) (s : σ) :
    (ys.flatMap g).foldl f s = ys.foldl (fun s y => (g y).foldl f s) s := by
  induction ys generalizing s with
  | nil => rfl
  | cons y ys ih => simp [List.foldl_append, ih]

/-- `parseGrid`'s nested row/column loops as one fold over the flat scan
order (a skipped missing row equals six skipped missing cells). -/
theorem parseGrid_eq_flat (cellSize : ℚ) (grid : List (List String)) :
    parseGrid cellSize grid =
      scanCoords.foldl
        (fun st yx => parseCell cellSize st yx.1 yx.2 (cellAt grid yx.1 yx.2))
        ⟨2, 2, [], [], [], []⟩ := by
  unfold parseGrid scanCoords
  rw [foldl_flatMap]
  refine List.foldl_ext _ _ _ fun st y _ => ?_
  rw [List.foldl_map]
  rcases hrow : grid[y]? with _ | row
  · rw [eq_comm]
    refine Eq.trans (List.foldl_ext _ _ _ fun st' x _ => ?_) (foldl_id _ _)
    simp [cellAt, hrow, parseCell]
  · exact List.foldl_ext _ _ _ fun st' x _ => by simp [cellAt, hrow]

/-- The parsed cell's effect on the player-start fields alone: a `"P"`
cell overwrites them with the current coordinates, every other cell
leaves them unchanged. -/
theorem parseCell_player (cellSize : ℚ) (st : ParseResult) (y x : ℕ)
    (cell : Option String) :
    ((parseCell cellSize st y x cell).playerX, (parseCell cellSize st y x cell).playerY) =
      if cell = some "P" then (x, y) else (st.playerX, st.playerY) := by
  rcases cell with _ | c
  · simp [parseCell]
  · by_cases h : c = "P"
    · simp [parseCell, h]
    · simp only [parseCell, h, if_false, Option.some.injEq]
      split_ifs <;> simp [h]

/-- Folding a conditional overwrite keeps the last matching element:
the result is the last `c` with `P c` (the first of the reversed list),
or the initial value when none matches. -/
theorem foldl_last_update {α β : Type _} (P : α → Prop) [DecidablePred P] (upd : α → β)
    (l : List α) (init : β) :
    l.foldl (fun pos c => if P c then upd c else pos) init =
      (((l.reverse.find? fun c => decide (P c))).map upd).getD init := by
  induction l generalizing init with
  | nil => rfl
  | cons c l ih =>
    rw [List.foldl_cons, ih, List.reverse_cons, List.find?_append]
    by_cases hp : P c <;>
      rcases hf : l.reverse.find? (fun c => decide (P c)) with _ | v <;>
        simp [hf, List.find?, hp]

/-- **C9 (amended).** The grid codec uses the *last* player-start cell in
row-major top-to-bottom, left-to-right scan order (each `"P"` found
overwrites the previous ones), and defaults the player start to `(2, 2)`
when the grid has no player-start cell. -/
theorem c9_parse_player_start (cellSize : ℚ) (grid : List (List String)) :
    ((parseGrid cellSize grid).playerX, (parseGrid cellSize grid).playerY) =
      ((lastPlayerCell grid).map fun yx => (yx.2, yx.1)).getD (2, 2) := by
  rw [parseGrid_eq_flat]
  refine Eq.trans
    (List.foldl_hom (fun st : ParseResult => (st.playerX, st.playerY)) _
      (fun pos yx => if cellAt grid yx.1 yx.2 = some "P" then (yx.2, yx.1) else pos)
      scanCoords _
      (fun st yx => (parseCell_player cellSize st yx.1 yx.2 (cellAt grid yx.1 yx.2)).symm)).symm
    ?_
  exact foldl_last_update (fun yx => cellAt grid yx.1 yx.2 = some "P")
    (fun yx => (yx.2, yx.1)) scanCoords (2, 2)

/-- **C9, counterexample to the claim as stated.** In `gridTwoPlayers` the
first player-start cell of the row-major scan is `(y, x) = (0, 0)`, but the
codec parses the player start as `(x, y) = (1, 0)` — the last one found,
not the first. -/
theorem c9_counterexample :
    (scanCoords.find? fun yx => decide (cellAt gridTwoPlayers yx.1 yx.2 = some "P")) =
        some (0, 0) ∧
      ((parseGrid 60 gridTwoPlayers).playerX, (parseGrid 60 gridTwoPlayers).playerY) ≠
        (0, 0) := by
  constructor
  · rfl
  · decide

/-! ## C2: staged round-trip of target coordinates -/

theorem wf_setTargetCell {g : List (List String)} (hwf : WellFormedGrid g) (t : Tgt) :
    WellFormedGrid (setTargetCell g t) := by
  obtain ⟨hl, hr⟩ := hwf
  unfold setTargetCell
  split_ifs
  · rcases hrow : g[t.y.toNat]? with _ | row
    · exact ⟨hl, hr⟩
    · refine ⟨by simpa using hl, ?_⟩
      intro r hrmem
      rcases List.mem_or_eq_of_mem_set hrmem with h | h
      · exact hr r h
      · subst h
        rw [List.length_set]
        exact hr row (List.getElem?_mem hrow)
  · exact ⟨hl, hr⟩

theorem cellAt_setTargetCell {g : List (List String)} (hwf : WellFormedGrid g) {t : Tgt}
    (ht : TgtInBounds t) (y x : ℕ) :
    cellAt (setTargetCell g t) y x =
      if y = t.y.toNat ∧ x = t.x.toNat then some "T" else cellAt g y x := by
  obtain ⟨hl, hr⟩ := hwf
  obtain ⟨hx0, hx6, hy0, hy6⟩ := ht
  have h6 : (PLAY_GRID_SIZE : ℤ) = 6 := rfl
  have h6n : PLAY_GRID_SIZE = 6 := rfl
  have hyn : t.y.toNat < g.length := by rw [hl]; omega
  have hxr : ∀ row ∈ g, t.x.toNat < row.length := by
    intro row hrow; rw [hr row hrow]; omega
  unfold setTargetCell
  rw [if_pos ⟨hy0, hy6, hx0, hx6⟩]
  have hrow : g[t.y.toNat]? = some g[t.y.toNat] := List.getElem?_eq_getElem hyn
  rw [hrow]
  unfold cellAt
  by_cases hy : y = t.y.toNat
  · subst hy
    rw [List.getElem?_set_self (by simpa using hyn)]
    by_cases hx : x = t.x.toNat
    · subst hx
      rw [if_pos ⟨rfl, rfl⟩]
      simp [List.getElem?_set_self (hxr _ (List.getElem_mem hyn))]
    · rw [if_neg (by tauto)]
      rw [hrow]
      simp [List.getElem?_set_ne (fun h => hx h.symm)]
  · rw [List.getElem?_set_ne (fun h => hy h.symm), if_neg (by tauto)]

theorem cellAt_applyStageTargets {g : List (List String)} (hwf : WellFormedGrid g)
    {ts : List Tgt} (hts : ∀ t ∈ ts, TgtInBounds t) (y x : ℕ) :
    cellAt (applyStageTargets g ts) y x =
      if ∃ t ∈ ts, t.y.toNat = y ∧ t.x.toNat = x then some "T" else cellAt g y x := by
  induction ts generalizing g with
  | nil => simp [applyStageTargets]
  | cons t ts ih =>
    have hwf' := wf_setTargetCell hwf t
    have hts' : ∀ t' ∈ ts, TgtInBounds t' := fun t' h => hts t' (List.mem_cons_of_mem _ h)
    have hstep : applyStageTargets g (t :: ts) = applyStageTargets (setTargetCell g t) ts := rfl
    rw [hstep, ih hwf' hts']
    by_cases ha : ∃ t' ∈ ts, t'.y.toNat = y ∧ t'.x.toNat = x
    · rw [if_pos ha, if_pos ⟨ha.choose, List.mem_cons_of_mem _ ha.choose_spec.1, ha.choose_spec.2⟩]
    · rw [if_neg ha, cellAt_setTargetCell hwf (hts t (List.mem_cons_self t ts)) y x]
      by_cases hc : y = t.y.toNat ∧ x = t.x.toNat
      · rw [if_pos hc, if_pos ⟨t, List.mem_cons_self t ts, hc.1.symm, hc.2.symm⟩]
      · rw [if_neg hc, if_neg ?_]
        rintro ⟨t', ht', h1, h2⟩
        rcases List.mem_cons.mp ht' with h | h
        · subst h; exact hc ⟨h1.symm, h2.symm⟩
        · exact ha ⟨t', h, h1, h2⟩

theorem mem_scanCoords {yx : ℕ × ℕ} :
    yx ∈ scanCoords ↔ yx.1 < PLAY_GRID_SIZE ∧ yx.2 < PLAY_GRID_SIZE := by
  rcases yx with ⟨y, x⟩
  simp only [scanCoords, List.mem_flatMap, List.mem_map, List.mem_range, Prod.mk.injEq]
  constructor
  · rintro ⟨y', hy', x', hx', h1, h2⟩
    subst h1; subst h2; exact ⟨hy', hx'⟩
  · rintro ⟨hy, hx⟩
    exact ⟨y, hy, x, hx, rfl, rfl⟩

theorem mem_gridTargetCoords {g : List (List String)} {x y : ℕ} :
    (x, y) ∈ gridTargetCoords g ↔
      y < PLAY_GRID_SIZE ∧ x < PLAY_GRID_SIZE ∧ cellAt g y x = some "T" := by
  unfold gridTargetCoords
  rw [List.mem_filterMap]
  constructor
  · rintro ⟨⟨y', x'⟩, hmem, hf⟩
    by_cases hc : cellAt g y' x' = some "T"
    · rw [if_pos hc] at hf
      obtain ⟨hx, hy⟩ : x' = x ∧ y' = y := by simpa using hf
      subst hx; subst hy
      have h := mem_scanCoords.mp hmem
      exact ⟨h.1, h.2, hc⟩
    · rw [if_neg hc] at hf; cases hf
  · rintro ⟨hy, hx, hc⟩
    exact ⟨(y, x), mem_scanCoords.mpr ⟨hy, hx⟩, by simp [hc]⟩

/-- **C2.** Round-trip for staged levels: on a well-formed base grid that
contains no `"T"` cell (the data model keeps targets out of `baseGrid`),
normalizing at a stage index `i` whose targets are all in bounds succeeds,
and the `(x, y)` coordinates of the `"T"` cells of the merged grid are
exactly the coordinate set of `stages[i].targets`. -/
theorem c2_staged_roundtrip (lvl : Level) (i : ℕ) (st : Stage)
    (hmode : lvl.gameMode = GameMode.staged)
    (hst : lvl.stages[i]? = some st)
    (hwf : WellFormedGrid lvl.baseGrid)
    (hin : ∀ t ∈ st.targets, TgtInBounds t)
    (hnoT : ∀ y < PLAY_GRID_SIZE, ∀ x < PLAY_GRID_SIZE, cellAt lvl.baseGrid y x ≠ some "T") :
    ∃ merged, normalizeLevelData lvl i = some merged ∧
      ∀ x y : ℕ, ((x, y) ∈ gridTargetCoords merged ↔
        ∃ t ∈ st.targets, t.x = (x : ℤ) ∧ t.y = (y : ℤ)) := by
  have h6 : (PLAY_GRID_SIZE : ℤ) = 6 := rfl
  have h6n : PLAY_GRID_SIZE = 6 := rfl
  refine ⟨applyStageTargets lvl.baseGrid st.targets, ?_, ?_⟩
  · unfold normalizeLevelData
    rw [hmode, hst]
    rfl
  · intro x y
    rw [mem_gridTargetCoords, cellAt_applyStageTargets hwf hin y x]
    constructor
    · rintro ⟨hy, hx, hc⟩
      by_cases he : ∃ t ∈ st.targets, t.y.toNat = y ∧ t.x.toNat = x
      · obtain ⟨t, htm, hty, htx⟩ := he
        obtain ⟨hx0, hx6, hy0, hy6⟩ := hin t htm
        exact ⟨t, htm, by omega, by omega⟩
      · rw [if_neg he] at hc
        exact absurd hc (hnoT y hy x hx)
    · rintro ⟨t, htm, htx, hty⟩
      obtain ⟨hx0, hx6, hy0, hy6⟩ := hin t htm
      refine ⟨by omega, by omega, ?_⟩
      rw [if_pos ⟨t, htm, by omega, by omega⟩]

/-- **C2, witness.** The round-trip theorem applied to a concrete staged
level: its merged grid's `"T"` cells are exactly `{(1, 2)}`. -/
theorem c2_witness :
    ∃ merged, normalizeLevelData witnessStagedLevel 0 = some merged ∧
      ∀ x y : ℕ, ((x, y) ∈ gridTargetCoords merged ↔
        ∃ t ∈ (Stage.mk [⟨1, 2⟩]).targets, t.x = (x : ℤ) ∧ t.y = (y : ℤ)) :=
  c2_staged_roundtrip witnessStagedLevel 0 ⟨[⟨1, 2⟩]⟩ rfl rfl
    (by decide) (by decide) (by decide)

/-! ## C3: wall push-out and its tie order -/

/-- **C3.** Wall push-out: on player/wall overlap the resolution runs on
the four directional overlap depths; the player is pushed out along the
axis of minimum depth with only that axis's velocity zeroed, and equal
minima resolve in the fixed test order left, right, top, bottom.  In
particular depths (left 3, right 7, top 3, bottom 9) resolve left, with
the vertical velocity untouched. -/
theorem c3_wall_pushout (cellSize : ℚ) (p : Player) (w : Wall) :
    (p.x < w.x + cellSize ∧ p.x + p.size > w.x ∧ p.y < w.y + cellSize ∧ p.y + p.size > w.y →
      resolveWall cellSize p w =
        resolveOverlap cellSize p w.x w.y (p.x + p.size - w.x) (w.x + cellSize - p.x)
          (p.y + p.size - w.y) (w.y + cellSize - p.y)) ∧
    (∀ oL oR oT oB : ℚ,
      (oL ≤ oR → oL ≤ oT → oL ≤ oB →
        resolveOverlap cellSize p w.x w.y oL oR oT oB =
          { p with x := w.x - p.size, vx := 0 }) ∧
      (oR < oL → oR ≤ oT → oR ≤ oB →
        resolveOverlap cellSize p w.x w.y oL oR oT oB =
          { p with x := w.x + cellSize, vx := 0 }) ∧
      (oT < oL → oT < oR → oT ≤ oB →
        resolveOverlap cellSize p w.x w.y oL oR oT oB =
          { p with y := w.y - p.size, vy := 0 }) ∧
      (oB < oL → oB < oR → oB < oT →
        resolveOverlap cellSize p w.x w.y oL oR oT oB =
          { p with y := w.y + cellSize, vy := 0 })) ∧
    resolveOverlap cellSize p w.x w.y 3 7 3 9 = { p with x := w.x - p.size, vx := 0 } := by
  refine ⟨fun h => ?_, fun oL oR oT oB => ⟨?_, ?_, ?_, ?_⟩, ?_⟩
  · unfold resolveWall
    rw [if_pos h]
  · intro h1 h2 h3
    simp only [resolveOverlap]
    rw [min_eq_left h1, min_eq_left h2, min_eq_left h3, if_pos rfl]
  · intro h1 h2 h3
    simp only [resolveOverlap]
    rw [min_eq_right h1.le, min_eq_left h2, min_eq_left h3, if_neg (ne_of_lt h1), if_pos rfl]
  · intro h1 h2 h3
    simp only [resolveOverlap]
    rw [min_eq_right (le_min h1.le h2.le), min_eq_left h3, if_neg (ne_of_lt h1),
      if_neg (ne_of_lt h2), if_pos rfl]
  · intro h1 h2 h3
    simp only [resolveOverlap]
    rw [min_eq_right (le_min (le_min h1.le h2.le) h3.le), if_neg (ne_of_lt h1),
      if_neg (ne_of_lt h2), if_neg (ne_of_lt h3), if_pos rfl]
  · simp only [resolveOverlap]
    norm_num [min_def]

/-! ## C1: attraction uses the single nearest attractor -/

theorem closestStep_some (sqrt : ℚ → ℚ) (p : Player) (l : List Attractor) :
    ∀ (c : Attractor) (d : ℚ), d = distToPlayer sqrt p c →
      ∃ c' d', l.foldl (closestStep sqrt p) (some (c, d)) = some (c', d') ∧
        d' = distToPlayer sqrt p c' ∧ d' ≤ d ∧ (c' = c ∨ c' ∈ l) ∧
        ∀ a ∈ l, d' ≤ distToPlayer sqrt p a := by
  induction l with
  | nil =>
    intro c d hd
    exact ⟨c, d, rfl, hd, le_refl d, Or.inl rfl, by simp⟩
  | cons a l ih =>
    intro c d hd
    rw [List.foldl_cons]
    by_cases hlt : distToPlayer sqrt p a < d
    · have hstep : closestStep sqrt p (some (c, d)) a = some (a, distToPlayer sqrt p a) := by
        simp [closestStep, hlt]
      rw [hstep]
      obtain ⟨c', d', heq, hd', hle, hmem, hall⟩ := ih a (distToPlayer sqrt p a) rfl
      refine ⟨c', d', heq, hd', le_trans hle hlt.le, ?_, ?_⟩
      · rcases hmem with h | h
        · exact Or.inr (h ▸ List.mem_cons_self a l)
        · exact Or.inr (List.mem_cons_of_mem a h)
      · intro b hb
        rcases List.mem_cons.mp hb with h | h
        · exact h ▸ hle
        · exact hall b h
    · have hstep : closestStep sqrt p (some (c, d)) a = some (c, d) := by
        simp [closestStep, hlt]
      rw [hstep]
      obtain ⟨c', d', heq, hd', hle, hmem, hall⟩ := ih c d hd
      refine ⟨c', d', heq, hd', hle, ?_, ?_⟩
      · rcases hmem with h | h
        · exact Or.inl h
        · exact Or.inr (List.mem_cons_of_mem a h)
      · intro b hb
        rcases List.mem_cons.mp hb with h | h
        · exact h ▸ le_trans hle (not_lt.mp hlt)
        · exact hall b h

/-- `getClosestAttractor` returns an attractor of the list at minimal
distance from the player (under the given square-root model). -/
theorem getClosestAttractor_spec (sqrt : ℚ → ℚ) (p : Player) (l : List Attractor)
    (c : Attractor) (h : getClosestAttractor sqrt p l = some c) :
    c ∈ l ∧ ∀ a ∈ l, distToPlayer sqrt p c ≤ distToPlayer sqrt p a := by
  cases l with
  | nil => cases h
  | cons a l =>
    unfold getClosestAttractor at h
    rw [List.foldl_cons] at h
    have hstep : closestStep sqrt p none a = some (a, distToPlayer sqrt p a) := rfl
    rw [hstep] at h
    obtain ⟨c', d', heq, hd', hle, hmem, hall⟩ :=
      closestStep_some sqrt p l a (distToPlayer sqrt p a) rfl
    rw [heq] at h
    obtain rfl : c' = c := by simpa using h
    constructor
    · rcases hmem with h' | h'
      · exact h' ▸ List.mem_cons_self a l
      · exact List.mem_cons_of_mem a h'
    · intro b hb
      rcases List.mem_cons.mp hb with h' | h'
      · exact h' ▸ (hd' ▸ hle)
      · exact hd' ▸ hall b h'

theorem getClosestAttractor_singleton (sqrt : ℚ → ℚ) (p : Player) (c : Attractor) :
    getClosestAttractor sqrt p [c] = some c := rfl

/-- **C1 (amended, current engine).** While an attract input is held, the
per-polarity update uses the single nearest attractor of that polarity
only: the result equals the result with every other attractor removed;
no force applies at or below the minimum distance; above it, the
velocity gains `K / (dist² + D) · PHYSICS_SPEED` along the direction
`(dx, dy) / dist`, which is a unit vector whenever the square root is
exact; position is untouched.  The full `applyAttraction` applies the red
block iff `x` is held and then the blue block iff `z` is held. -/
theorem c1_attraction_nearest_only (sqrt : ℚ → ℚ) (p : Player)
    (attractors : List Attractor) :
    (∀ c, getClosestAttractor sqrt p attractors = some c →
      c ∈ attractors ∧
      (∀ a ∈ attractors, distToPlayer sqrt p c ≤ distToPlayer sqrt p a) ∧
      applyPolarity sqrt attractors p = applyPolarity sqrt [c] p ∧
      (distToPlayer sqrt p c ≤ MIN_ATTRACTION_DISTANCE →
        applyPolarity sqrt attractors p = p) ∧
      (MIN_ATTRACTION_DISTANCE < distToPlayer sqrt p c →
        (applyPolarity sqrt attractors p).vx =
          p.vx + dxTo p c / distToPlayer sqrt p c * attractionForce (distToPlayer sqrt p c) ∧
        (applyPolarity sqrt attractors p).vy =
          p.vy + dyTo p c / distToPlayer sqrt p c * attractionForce (distToPlayer sqrt p c) ∧
        (applyPolarity sqrt attractors p).x = p.x ∧
        (applyPolarity sqrt attractors p).y = p.y ∧
        (distToPlayer sqrt p c * distToPlayer sqrt p c =
            dxTo p c * dxTo p c + dyTo p c * dyTo p c →
          (dxTo p c / distToPlayer sqrt p c) ^ 2 +
            (dyTo p c / distToPlayer sqrt p c) ^ 2 = 1))) ∧
    (∀ keys reds blues,
      applyAttraction sqrt keys reds blues p =
        (if keys.z then applyPolarity sqrt blues else id)
          ((if keys.x then applyPolarity sqrt reds else id) p)) := by
  constructor
  · intro c hc
    obtain ⟨hmem, hmin⟩ := getClosestAttractor_spec sqrt p attractors c hc
    have happly : applyPolarity sqrt attractors p = applyPolarity sqrt [c] p := by
      unfold applyPolarity
      rw [hc, getClosestAttractor_singleton]
    refine ⟨hmem, hmin, happly, ?_, ?_⟩
    · intro hle
      unfold applyPolarity
      rw [hc]
      exact if_neg (not_lt.mpr hle)
    · intro hgt
      have hres : applyPolarity sqrt attractors p =
          { p with
            vx := p.vx + dxTo p c / distToPlayer sqrt p c *
              attractionForce (distToPlayer sqrt p c),
            vy := p.vy + dyTo p c / distToPlayer sqrt p c *
              attractionForce (distToPlayer sqrt p c) } := by
        unfold applyPolarity
        rw [hc]
        exact if_pos hgt
      refine ⟨by rw [hres], by rw [hres], by rw [hres], by rw [hres], ?_⟩
      intro hexact
      have hd0 : distToPlayer sqrt p c ≠ 0 := by
        have h10 : (0 : ℚ) < MIN_ATTRACTION_DISTANCE := by
          norm_num [MIN_ATTRACTION_DISTANCE]
        exact ne_of_gt (lt_trans h10 hgt)
      field_simp
      linear_combination -hexact
  · intro keys reds blues
    unfold applyAttraction
    rcases keys with ⟨hx | hx, hz | hz⟩ <;> rfl

/-- **C1, counterexample to the claim as stated.** In the repository's
older variant engine, the attraction applied to the velocity is a sum
over *all* attractors of the held polarity: with the red input held and
two red attractors at distances 15 and 50, removing the farther (not
nearest) attractor changes the resulting player state. -/
theorem c1_counterexample :
    distToPlayer cexSqrt cexPlayer cexA1 < distToPlayer cexSqrt cexPlayer cexA2 ∧
      applyAttractionVariant cexSqrt ⟨true, false⟩ [cexA1, cexA2] [] cexPlayer ≠
        applyAttractionVariant cexSqrt ⟨true, false⟩ [cexA1] [] cexPlayer := by
  constructor
  · norm_num [distToPlayer, dxTo, dyTo, cexSqrt, cexPlayer, cexA1, cexA2, ATTRACTOR_SIZE]
  · norm_num [applyAttractionVariant, cexSqrt, cexPlayer, cexA1, cexA2, ATTRACTOR_SIZE,
      PHYSICS_SPEED, Player.mk.injEq]

/-! ## C4: when gravity applies -/

theorem applyPolarity_hasAttracted (sqrt : ℚ → ℚ) (l : List Attractor) (p : Player) :
    (applyPolarity sqrt l p).hasAttracted = p.hasAttracted := by
  unfold applyPolarity
  rcases hg : getClosestAttractor sqrt p l with _ | c
  · rfl
  · dsimp only
    split_ifs <;> rfl

theorem applyAttraction_hasAttracted (sqrt : ℚ → ℚ) (keys : Keys)
    (reds blues : List Attractor) (p : Player) :
    (applyAttraction sqrt keys reds blues p).hasAttracted = p.hasAttracted := by
  unfold applyAttraction
  dsimp only
  by_cases hx : keys.x <;> by_cases hz : keys.z <;>
    simp [hx, hz, applyPolarity_hasAttracted]

theorem resolveWall_hasAttracted (cellSize : ℚ) (p : Player) (w : Wall) :
    (resolveWall cellSize p w).hasAttracted = p.hasAttracted := by
  unfold resolveWall resolveOverlap
  dsimp only
  split_ifs <;> rfl

theorem wallsStep_hasAttracted (cellSize : ℚ) (walls : List Wall) :
    ∀ p : Player, (wallsStep cellSize walls p).hasAttracted = p.hasAttracted := by
  induction walls with
  | nil => intro p; rfl
  | cons w walls ih =>
    intro p
    show (wallsStep cellSize walls (resolveWall cellSize p w)).hasAttracted = _
    rw [ih, resolveWall_hasAttracted]

theorem clampStep_hasAttracted (canvasW canvasH : ℚ) (p : Player) :
    (clampStep canvasW canvasH p).hasAttracted = p.hasAttracted := by
  unfold clampStep
  dsimp only
  split_ifs <;> rfl

theorem gravityStep_flag (keys : Keys) (p : Player) :
    (gravityStep keys p).hasAttracted = (p.hasAttracted || heldAttract keys) := by
  rcases h : heldAttract keys with _ | _ <;>
    · simp [gravityStep, h]
      try (split_ifs <;> simp_all)

/-- The gravity block's effect on the vertical velocity alone. -/
theorem gravityStep_vy (keys : Keys) (p : Player) :
    (gravityStep keys p).vy =
      if p.hasAttracted && !heldAttract keys then p.vy + GRAVITY * PHYSICS_SPEED
      else p.vy := by
  rcases h : heldAttract keys with _ | _ <;>
    · simp [gravityStep, h]
      try (split_ifs <;> simp_all)

theorem updatePlayer_hasAttracted (cellSize canvasW canvasH : ℚ) (walls : List Wall)
    (keys : Keys) (p : Player) :
    (updatePlayer cellSize canvasW canvasH walls keys p).hasAttracted =
      (p.hasAttracted || heldAttract keys) := by
  unfold updatePlayer
  show (wallsStep _ _ _).hasAttracted = _
  rw [wallsStep_hasAttracted, clampStep_hasAttracted]
  show (gravityStep _ _).hasAttracted = _
  rw [gravityStep_flag]
  rfl

/-- The `hasAttracted` flag after `n` ticks holds iff an attract input
was held during some earlier tick (or it was set at the start). -/
theorem playerAt_flag (sqrt : ℚ → ℚ) (cellSize canvasW canvasH : ℚ)
    (reds blues : List Attractor) (walls : List Wall) (inputs : ℕ → Keys)
    (p0 : Player) (n : ℕ) :
    (playerAt sqrt cellSize canvasW canvasH reds blues walls inputs p0 n).hasAttracted = true ↔
      p0.hasAttracted = true ∨ ∃ i < n, heldAttract (inputs i) = true := by
  induction n with
  | zero => simp [playerAt]
  | succ n ih =>
    show (tickPlayer _ _ _ _ _ _ _ _ _).hasAttracted = true ↔ _
    unfold tickPlayer
    rw [updatePlayer_hasAttracted, applyAttraction_hasAttracted, Bool.or_eq_true, ih]
    constructor
    · rintro ((h0 | ⟨i, hi, hheld⟩) | hn)
      · exact Or.inl h0
      · exact Or.inr ⟨i, Nat.lt_succ_of_lt hi, hheld⟩
      · exact Or.inr ⟨n, Nat.lt_succ_self n, hn⟩
    · rintro (h0 | ⟨i, hi, hheld⟩)
      · exact Or.inl (Or.inl h0)
      · rcases Nat.lt_succ_iff_lt_or_eq.mp hi with h | h
        · exact Or.inl (Or.inr ⟨i, h, hheld⟩)
        · exact Or.inr (h ▸ hheld)

/-- **C4.** In any physics-step trace, the gravity block of tick `n` adds
the constant downward acceleration to the vertical velocity iff an
attract input was held during some earlier tick of the trace (or the
flag was already set at its start) and no attract input is held during
tick `n itself`; and every successful `loadLevel` call — initial load or
stage advance, `resetState` or not — clears the `hasAttracted` flag. -/
theorem c4_gravity_iff (sqrt : ℚ → ℚ) (cellSize canvasW canvasH : ℚ)
    (reds blues : List Attractor) (walls : List Wall) (rand : ℕ → ℚ)
    (inputs : ℕ → Keys) (p0 : Player) (n : ℕ) :
    (∀ (s : GameState) (lvl : Level) (idx : ℕ) (rst : Bool) (grid : List (List String)),
      normalizeLevelData lvl idx = some grid →
        (loadLevel cellSize rand s lvl idx rst).player.hasAttracted = false) ∧
    ((gravityStep (inputs n)
        (preGravityPlayer sqrt cellSize canvasW canvasH reds blues walls inputs p0 n)).vy =
      (preGravityPlayer sqrt cellSize canvasW canvasH reds blues walls inputs p0 n).vy +
        GRAVITY * PHYSICS_SPEED ↔
      ((p0.hasAttracted = true ∨ ∃ i < n, heldAttract (inputs i) = true) ∧
        heldAttract (inputs n) = false)) := by
  have hG : GRAVITY * PHYSICS_SPEED ≠ 0 := by norm_num [GRAVITY, PHYSICS_SPEED]
  constructor
  · intro s lvl idx rst grid hgrid
    unfold loadLevel
    rw [hgrid]
    dsimp only
    split_ifs <;> rfl
  · have hq : (preGravityPlayer sqrt cellSize canvasW canvasH reds blues walls
        inputs p0 n).hasAttracted =
        (playerAt sqrt cellSize canvasW canvasH reds blues walls inputs p0 n).hasAttracted := by
      unfold preGravityPlayer
      show (applyAttraction _ _ _ _ _).hasAttracted = _
      rw [applyAttraction_hasAttracted]
    rw [gravityStep_vy, hq]
    rcases hf : heldAttract (inputs n) with _ | _
    · rcases hflag : (playerAt sqrt cellSize canvasW canvasH reds blues walls
          inputs p0 n).hasAttracted with _ | _
      · rw [if_neg (by simp)]
        constructor
        · intro h
          exact absurd (by linarith : GRAVITY * PHYSICS_SPEED = 0) hG
        · rintro ⟨hP, _⟩
          have := (playerAt_flag sqrt cellSize canvasW canvasH reds blues walls
            inputs p0 n).mpr hP
          rw [hflag] at this
          cases this
      · rw [if_pos (by simp)]
        constructor
        · intro _
          exact ⟨(playerAt_flag sqrt cellSize canvasW canvasH reds blues walls
            inputs p0 n).mp hflag, rfl⟩
        · intro _
          rfl
    · rw [if_neg (by simp)]
      constructor
      · intro h
        exact absurd (by linarith : GRAVITY * PHYSICS_SPEED = 0) hG
      · rintro ⟨_, hcontra⟩
        cases hcontra

/-! ## C5, C6: collection events and progression -/

/-- The per-target collision body never touches the player, the walls,
the attractors, the level, the stage index or the stage count. -/
theorem collectAt_fields (s : GameState) (i : ℕ) :
    (collectAt s i).currentLevelData = s.currentLevelData ∧
    (collectAt s i).player = s.player ∧
    (collectAt s i).currentPlayStageIndex = s.currentPlayStageIndex ∧
    (collectAt s i).totalStages = s.totalStages := by
  unfold collectAt
  rcases h : s.targets[i]? with _ | t
  · exact ⟨rfl, rfl, rfl, rfl⟩
  · dsimp only
    split_ifs <;> exact ⟨rfl, rfl, rfl, rfl⟩

theorem collectTargets_fields (s : GameState) :
    (collectTargets s).currentLevelData = s.currentLevelData ∧
    (collectTargets s).player = s.player ∧
    (collectTargets s).currentPlayStageIndex = s.currentPlayStageIndex ∧
    (collectTargets s).totalStages = s.totalStages := by
  unfold collectTargets
  generalize List.range s.targets.length = l
  induction l generalizing s with
  | nil => exact ⟨rfl, rfl, rfl, rfl⟩
  | cons i l ih =>
    rw [List.foldl_cons]
    obtain ⟨h1, h2, h3, h4⟩ := ih (collectAt s i)
    obtain ⟨g1, g2, g3, g4⟩ := collectAt_fields s i
    exact ⟨h1.trans g1, h2.trans g2, h3.trans g3, h4.trans g4⟩

/-- Sprint invariant of one collision body: either the score is still
below the threshold, or the game is already over. -/
theorem collectAt_sprint_inv (s : GameState) (i : ℕ)
    (hm : s.currentLevelData.gameMode = GameMode.sprint)
    (h : s.score < SPRINT_TARGET_SCORE ∨ s.isGameOver = true) :
    (collectAt s i).score < SPRINT_TARGET_SCORE ∨ (collectAt s i).isGameOver = true := by
  unfold collectAt
  rcases ht : s.targets[i]? with _ | t
  · exact h
  · dsimp only
    by_cases hcol : ¬t.collected = true ∧ playerOverlapsTarget s.player t
    · rw [if_pos hcol]
      by_cases hscore : SPRINT_TARGET_SCORE ≤ s.score + 10
      · right
        dsimp only
        rw [if_neg (fun hs => by have h2 := hs.1; rw [hm] at h2; cases h2),
          if_pos ⟨hm, hscore⟩]
      · left
        dsimp only
        omega
    · rw [if_neg hcol]
      exact h

theorem collectTargets_sprint_inv (s : GameState)
    (hm : s.currentLevelData.gameMode = GameMode.sprint)
    (h : s.score < SPRINT_TARGET_SCORE ∨ s.isGameOver = true) :
    (collectTargets s).score < SPRINT_TARGET_SCORE ∨
      (collectTargets s).isGameOver = true := by
  unfold collectTargets
  generalize List.range s.targets.length = l
  induction l generalizing s with
  | nil => exact h
  | cons i l ih =>
    rw [List.foldl_cons]
    exact ih (collectAt s i) (((collectAt_fields s i).1).symm ▸ hm)
      (collectAt_sprint_inv s i hm h)

/-- The full-clear phase of a sprint game only respawns targets: it never
changes `isGameOver` or the score. -/
theorem fullClear_sprint (cellSize : ℚ) (rand : ℕ → ℚ) (s : GameState)
    (hm : s.currentLevelData.gameMode = GameMode.sprint) :
    (fullClear cellSize rand s).isGameOver = s.isGameOver ∧
      (fullClear cellSize rand s).score = s.score := by
  unfold fullClear
  split_ifs with h1 h2 h3 h4
  · exact ⟨rfl, rfl⟩
  · exact absurd (Or.inr hm) h2
  · exact absurd (Or.inr hm) h2
  · exact absurd (Or.inr hm) h2
  · exact ⟨rfl, rfl⟩

/-- **C5.** In sprint mode, a `checkCollisions` call whose collection
phase raises the score from below `SPRINT_TARGET_SCORE` to at or above it
sets `isGameOver` within that same collection phase — the full-clear
phase never touches the flag — so the transition happens on the
collection event, not a later tick. -/
theorem c5_sprint_threshold (cellSize : ℚ) (rand : ℕ → ℚ) (s : GameState)
    (hm : s.currentLevelData.gameMode = GameMode.sprint)
    (hlow : s.score < SPRINT_TARGET_SCORE)
    (hhigh : SPRINT_TARGET_SCORE ≤ (collectTargets s).score) :
    (collectTargets s).isGameOver = true ∧
      (checkCollisions cellSize rand s).isGameOver = true := by
  have hinv := collectTargets_sprint_inv s hm (Or.inl hlow)
  have hgo : (collectTargets s).isGameOver = true := by
    rcases hinv with h | h
    · omega
    · exact h
  refine ⟨hgo, ?_⟩
  unfold checkCollisions
  rw [(fullClear_sprint cellSize rand (collectTargets s)
    (((collectTargets_fields s).1).symm ▸ hm)).1]
  exact hgo

/-- One parsed cell cannot introduce a collected target. -/
theorem parseCell_targs_uncollected (cellSize : ℚ) (st : ParseResult) (y x : ℕ)
    (cell : Option String) (h : ∀ t ∈ st.targs, t.collected = false) :
    ∀ t ∈ (parseCell cellSize st y x cell).targs, t.collected = false := by
  unfold parseCell
  rcases cell with _ | c
  · exact h
  · dsimp only
    split_ifs <;> intro t ht <;>
      first
        | exact h t ht
        | (rcases List.mem_append.mp ht with h' | h'
           · exact h t h'
           · rw [List.mem_singleton.mp h'])

theorem foldl_parseCell_targs (cellSize : ℚ) (grid : List (List String)) :
    ∀ (l : List (ℕ × ℕ)) (st : ParseResult), (∀ t ∈ st.targs, t.collected = false) →
      ∀ t ∈ (l.foldl
          (fun st' yx => parseCell cellSize st' yx.1 yx.2 (cellAt grid yx.1 yx.2))
          st).targs,
        t.collected = false := by
  intro l
  induction l with
  | nil => intro st h; exact h
  | cons yx l ih =>
    intro st h
    rw [List.foldl_cons]
    exact ih _ (parseCell_targs_uncollected cellSize st yx.1 yx.2 _ h)

/-- Targets produced by the grid codec are all uncollected. -/
theorem parseGrid_targs_uncollected (cellSize : ℚ) (grid : List (List String)) :
    ∀ t ∈ (parseGrid cellSize grid).targs, t.collected = false := by
  rw [parseGrid_eq_flat]
  exact foldl_parseCell_targs cellSize grid scanCoords _
    (fun t ht => absurd ht (List.not_mem_nil t))

/-- Normalization of a staged level at an existing stage index. -/
theorem normalize_staged_some (lvl : Level) (idx : ℕ) (st : Stage)
    (hm : lvl.gameMode = GameMode.staged) (h : lvl.stages[idx]? = some st) :
    normalizeLevelData lvl idx = some (applyStageTargets lvl.baseGrid st.targets) := by
  unfold normalizeLevelData
  rw [hm, h]
  rfl

/-- A stage advance: `loadLevel` with `resetState = false` on a staged
level whose normalization succeeds. -/
theorem loadLevel_noReset (cellSize : ℚ) (rand : ℕ → ℚ) (s : GameState)
    (lvl : Level) (idx : ℕ) (grid : List (List String))
    (hgrid : normalizeLevelData lvl idx = some grid)
    (hmode : lvl.gameMode = GameMode.staged) :
    loadLevel cellSize rand s lvl idx false =
      { s with currentLevelData := lvl, currentPlayStageIndex := idx,
               totalStages := if lvl.stages.length = 0 then 1 else lvl.stages.length,
               isGameOver := false,
               player := { s.player with hasAttracted := false },
               redAttractors := (parseGrid cellSize grid).reds,
               blueAttractors := (parseGrid cellSize grid).blues,
               walls := (parseGrid cellSize grid).wallList,
               targets := (parseGrid cellSize grid).targs } := by
  unfold loadLevel
  rw [hgrid]
  simp [hmode]

/-- **C6.** In staged mode, when the collection phase of a
`checkCollisions` call leaves every target of stage `k` collected and
`k + 1` stages short of the stage count exist beyond it, the call
advances to stage `k + 1`, leaves the score and the player's `(x, y)`
position unchanged, and installs the new stage's targets all
uncollected. -/
theorem c6_staged_advance (cellSize : ℚ) (rand : ℕ → ℚ) (s : GameState)
    (hm : s.currentLevelData.gameMode = GameMode.staged)
    (htot : s.totalStages = s.currentLevelData.stages.length)
    (hlt : s.currentPlayStageIndex + 1 < s.totalStages)
    (hall : (collectTargets s).targets.all (fun t => t.collected) = true) :
    (checkCollisions cellSize rand s).currentPlayStageIndex =
        s.currentPlayStageIndex + 1 ∧
      (checkCollisions cellSize rand s).score = (collectTargets s).score ∧
      (checkCollisions cellSize rand s).player.x = s.player.x ∧
      (checkCollisions cellSize rand s).player.y = s.player.y ∧
      ∀ t ∈ (checkCollisions cellSize rand s).targets, t.collected = false := by
  obtain ⟨f1, f2, f3, f4⟩ := collectTargets_fields s
  have hm1 : (collectTargets s).currentLevelData.gameMode = GameMode.staged := by
    rw [f1]; exact hm
  have hidx : (collectTargets s).currentPlayStageIndex + 1 <
      (collectTargets s).currentLevelData.stages.length := by
    rw [f1, f3]; omega
  have hstage := List.getElem?_eq_getElem hidx
  have hnorm := normalize_staged_some (collectTargets s).currentLevelData
    ((collectTargets s).currentPlayStageIndex + 1) _ hm1 hstage
  have hload := loadLevel_noReset cellSize rand
    { collectTargets s with
        currentPlayStageIndex := (collectTargets s).currentPlayStageIndex + 1 }
    (collectTargets s).currentLevelData
    ((collectTargets s).currentPlayStageIndex + 1) _ hnorm hm1
  have hfc : checkCollisions cellSize rand s =
      loadLevel cellSize rand
        { collectTargets s with
            currentPlayStageIndex := (collectTargets s).currentPlayStageIndex + 1 }
        (collectTargets s).currentLevelData
        ((collectTargets s).currentPlayStageIndex + 1) false := by
    unfold checkCollisions fullClear
    rw [if_pos hall, if_neg (fun h => by rw [hm1] at h; rcases h with h | h <;> cases h),
      if_pos (by omega : (collectTargets s).currentPlayStageIndex <
        (collectTargets s).totalStages - 1)]
  rw [hfc, hload]
  refine ⟨?_, rfl, ?_, ?_, ?_⟩
  · show (collectTargets s).currentPlayStageIndex + 1 = s.currentPlayStageIndex + 1
    rw [f3]
  · show (collectTargets s).player.x = s.player.x
    rw [f2]
  · show (collectTargets s).player.y = s.player.y
    rw [f2]
  · exact parseGrid_targs_uncollected cellSize _

/-- **C5, witness.** Collecting the target at score 240 crosses the
threshold 250 and ends the game in the same collection phase. -/
theorem c5_witness :
    (collectTargets c5State).isGameOver = true ∧
      (checkCollisions 60 (fun _ => 0) c5State).isGameOver = true :=
  c5_sprint_threshold 60 (fun _ => 0) c5State rfl
    (by norm_num [c5State, SPRINT_TARGET_SCORE])
    (by norm_num [collectTargets, collectAt, c5State, c5Level, playerOverlapsTarget,
      TARGET_SIZE, SPRINT_TARGET_SCORE, List.range_succ, List.range_zero])

/-- **C6, witness.** Collecting stage 0's last target advances to stage 1,
keeps score and player position, and installs stage 1's targets
uncollected. -/
theorem c6_witness :
    (checkCollisions 60 (fun _ => 0) c6State).currentPlayStageIndex =
        c6State.currentPlayStageIndex + 1 ∧
      (checkCollisions 60 (fun _ => 0) c6State).score = (collectTargets c6State).score ∧
      (checkCollisions 60 (fun _ => 0) c6State).player.x = c6State.player.x ∧
      (checkCollisions 60 (fun _ => 0) c6State).player.y = c6State.player.y ∧
      ∀ t ∈ (checkCollisions 60 (fun _ => 0) c6State).targets, t.collected = false :=
  c6_staged_advance 60 (fun _ => 0) c6State rfl rfl (by norm_num [c6State])
    (by norm_num [collectTargets, collectAt, c6State, c6Level, playerOverlapsTarget,
      TARGET_SIZE, SPRINT_TARGET_SCORE, List.range_succ, List.range_zero])

/-! ## C7: the render interpolation factor -/

theorem stepLoop_spec : ∀ (fuel : ℕ) (a : ℚ) (steps : ℕ), 0 ≤ a →
    0 ≤ (stepLoop a steps fuel).1 ∧ (stepLoop a steps fuel).1 ≤ a ∧
      ((stepLoop a steps fuel).2 < steps + fuel → (stepLoop a steps fuel).1 < PHYSICS_DT) := by
  intro fuel
  induction fuel with
  | zero =>
    intro a steps ha
    rw [stepLoop]
    exact ⟨ha, le_refl a, fun h => absurd h (by omega)⟩
  | succ fuel ih =>
    intro a steps ha
    by_cases hge : PHYSICS_DT ≤ a
    · have hstep : stepLoop a steps (fuel + 1) =
          stepLoop (a - PHYSICS_DT) (steps + 1) fuel := by
        rw [stepLoop]
        exact if_pos hge
      rw [hstep]
      obtain ⟨h1, h2, h3⟩ := ih (a - PHYSICS_DT) (steps + 1) (by linarith)
      refine ⟨h1, by linarith [show (0 : ℚ) < PHYSICS_DT by norm_num [PHYSICS_DT]], ?_⟩
      intro hlt
      exact h3 (by omega)
    · have hstep : stepLoop a steps (fuel + 1) = (a, steps) := by
        rw [stepLoop]
        exact if_neg hge
      rw [hstep]
      exact ⟨ha, le_refl a, fun _ => not_le.mp hge⟩

/-- **C7 (amended).** After a frame's fixed-step accumulation from a
nonnegative backlog and nonnegative elapsed time, the interpolation
factor is nonnegative and bounded by `2000 / PHYSICS_DT = 120`; it is
below 1 exactly as the claim states whenever the catch-up loop stopped
short of the `MAX_PHYSICS_STEPS` cap, but a capped frame can leave a full
step (or more) of backlog, making the factor reach 1 or beyond. -/
theorem c7_interpolation_factor (accum elapsed : ℚ) (ha : 0 ≤ accum) (he : 0 ≤ elapsed) :
    0 ≤ interpolationFactor (frameAccum accum elapsed).1 ∧
      ((frameAccum accum elapsed).2 < MAX_PHYSICS_STEPS →
        interpolationFactor (frameAccum accum elapsed).1 < 1) ∧
      interpolationFactor (frameAccum accum elapsed).1 ≤ 120 := by
  have hDT : (0 : ℚ) < PHYSICS_DT := by norm_num [PHYSICS_DT]
  unfold frameAccum interpolationFactor
  dsimp only
  have ha1 : 0 ≤ (if accum + elapsed > 2000 then (2000 : ℚ) else accum + elapsed) ∧
      (if accum + elapsed > 2000 then (2000 : ℚ) else accum + elapsed) ≤ 2000 := by
    split_ifs with h
    · norm_num
    · constructor <;> linarith
  obtain ⟨h1, h2, h3⟩ := stepLoop_spec MAX_PHYSICS_STEPS
    (if accum + elapsed > 2000 then (2000 : ℚ) else accum + elapsed) 0 ha1.1
  refine ⟨div_nonneg h1 hDT.le, ?_, ?_⟩
  · intro hlt
    rw [div_lt_one hDT]
    exact h3 (by omega)
  · rw [div_le_iff₀ hDT]
    have : (120 : ℚ) * PHYSICS_DT = 2000 := by norm_num [PHYSICS_DT]
    linarith [le_trans h2 ha1.2]

/-- **C7, witness.** The factor bounds applied to a frame arriving 10 ms
after the previous one with an empty backlog. -/
theorem c7_witness :
    0 ≤ interpolationFactor (frameAccum 0 10).1 ∧
      ((frameAccum 0 10).2 < MAX_PHYSICS_STEPS →
        interpolationFactor (frameAccum 0 10).1 < 1) ∧
      interpolationFactor (frameAccum 0 10).1 ≤ 120 :=
  c7_interpolation_factor 0 10 (by norm_num) (by norm_num)

/-- **C7, counterexample to the claim as stated.** A frame arriving
100 ms after the previous one (an ordinary stall of a few frames) runs
the capped 2 physics steps and leaves `200/3` ms of backlog, so the
exposed interpolation factor is `4 ∉ [0, 1)`. -/
theorem c7_counterexample :
    interpolationFactor (frameAccum 0 100).1 = 4 ∧
      ¬ interpolationFactor (frameAccum 0 100).1 < 1 := by
  have h2 : frameAccum 0 100 = (200 / 3, 2) := by
    show stepLoop (if (0 : ℚ) + 100 > 2000 then 2000 else (0 : ℚ) + 100) 0
      MAX_PHYSICS_STEPS = (200 / 3, 2)
    rw [if_neg (by norm_num)]
    show stepLoop ((0 : ℚ) + 100) 0 (1 + 1) = (200 / 3, 2)
    rw [stepLoop, if_pos (by norm_num [PHYSICS_DT])]
    rw [stepLoop, if_pos (by norm_num [PHYSICS_DT])]
    rw [stepLoop]
    norm_num [PHYSICS_DT, Prod.mk.injEq]
  rw [h2]
  constructor
  · norm_num [interpolationFactor, PHYSICS_DT]
  · norm_num [interpolationFactor, PHYSICS_DT]

/-! ## C10: the normalizer mutates nothing it was given -/

theorem copyRows_getElem (store : List (List String)) (baseGrid : List ℕ)
    (r : ℕ) (hr : r < store.length) :
    ((copyRows store baseGrid).1)[r]? = store[r]? := by
  unfold copyRows
  exact List.getElem?_append_left hr

theorem copyRows_refs_ge (store : List (List String)) (baseGrid : List ℕ)
    (r : ℕ) (hr : r ∈ (copyRows store baseGrid).2) : store.length ≤ r := by
  unfold copyRows at hr
  obtain ⟨i, _, rfl⟩ := List.mem_range'.mp hr
  omega

theorem writeTargetRef_getElem (st : List (List String)) (mergedRefs : List ℕ)
    (t : Tgt) (origLen r : ℕ) (hr : r < origLen)
    (hrefs : ∀ q ∈ mergedRefs, origLen ≤ q) :
    (writeTargetRef st mergedRefs t)[r]? = st[r]? := by
  unfold writeTargetRef
  split_ifs
  · rcases hq : mergedRefs[t.y.toNat]? with _ | q
    · rfl
    · have hq' : origLen ≤ q := hrefs q (List.getElem?_mem hq)
      exact List.getElem?_set_ne (by omega)
  · rfl

theorem foldl_writeTargetRef_getElem (mergedRefs : List ℕ) (origLen r : ℕ)
    (hr : r < origLen) (hrefs : ∀ q ∈ mergedRefs, origLen ≤ q) :
    ∀ (ts : List Tgt) (st : List (List String)),
      (ts.foldl (fun st' t => writeTargetRef st' mergedRefs t) st)[r]? = st[r]? := by
  intro ts
  induction ts with
  | nil => intro st; rfl
  | cons t ts ih =>
    intro st
    rw [List.foldl_cons, ih]
    exact writeTargetRef_getElem st mergedRefs t origLen r hr hrefs

/-- **C10.** At the heap level, `normalizeLevelData` never mutates its
input: every row of the given base grid reads back unchanged from the
final store, and any returned grid is built from fresh row references
sharing nothing with the base grid (the staged target writes go only to
the fresh copies). -/
theorem c10_normalize_no_mutation (store : List (List String)) (gameMode : GameMode)
    (baseGrid : List ℕ) (stages : List Stage) (stageIndex : ℕ)
    (hvalid : ∀ r ∈ baseGrid, r < store.length) :
    (∀ r ∈ baseGrid,
      (normalizeLevelDataRef store gameMode baseGrid stages stageIndex).1[r]? =
        store[r]?) ∧
    (∀ refs,
      (normalizeLevelDataRef store gameMode baseGrid stages stageIndex).2 = some refs →
        ∀ r ∈ refs, r ∉ baseGrid) := by
  unfold normalizeLevelDataRef
  split_ifs with hmode
  · refine ⟨fun r hr => copyRows_getElem store baseGrid r (hvalid r hr), ?_⟩
    rintro refs h r hrefs hrbase
    obtain rfl : (copyRows store baseGrid).2 = refs := by simpa using h
    exact absurd (hvalid r hrbase) (not_lt.mpr (copyRows_refs_ge store baseGrid r hrefs))
  · rcases hst : stages[stageIndex]? with _ | stage
    · exact ⟨fun r _ => rfl, fun refs h => by cases h⟩
    · dsimp only
      refine ⟨fun r hr => ?_, ?_⟩
      · rw [foldl_writeTargetRef_getElem (copyRows store baseGrid).2 store.length r
          (hvalid r hr) (copyRows_refs_ge store baseGrid)]
        exact copyRows_getElem store baseGrid r (hvalid r hr)
      · rintro refs h r hrefs hrbase
        obtain rfl : (copyRows store baseGrid).2 = refs := by simpa using h
        exact absurd (hvalid r hrbase)
          (not_lt.mpr (copyRows_refs_ge store baseGrid r hrefs))

/-- **C10, witness.** The no-mutation theorem at a concrete one-row store
holding a staged level's base grid. -/
theorem c10_witness :
    (∀ r ∈ [0],
      (normalizeLevelDataRef [["P", " "]] GameMode.staged [0] [⟨[⟨1, 0⟩]⟩] 0).1[r]? =
        [["P", " "]][r]?) ∧
    (∀ refs,
      (normalizeLevelDataRef [["P", " "]] GameMode.staged [0] [⟨[⟨1, 0⟩]⟩] 0).2 =
          some refs →
        ∀ r ∈ refs, r ∉ [0]) :=
  c10_normalize_no_mutation [["P", " "]] GameMode.staged [0] [⟨[⟨1, 0⟩]⟩] 0
    (by decide)

end Polarity
